import Mathlib

/-
  Verification development for the MerpsClient submission logic
  (src/src/client.ts).  The submission protocol of `sendTransaction` /
  `sendTransactions` is embedded shallowly: the network is an environment
  value describing what the confirmation watcher and the simulation
  dry-run would report, and the client code is translated into pure Lean
  functions over that environment.
-/

/-- Outcome of `awaitTransactionSignatureConfirmation` (client.ts lines
108-113): either the transaction confirmed, or the call threw an error
object carrying a `timeout` flag (read at line 115) and a message (which
the client code never reads). -/
inductive WatchResult where
  | ok : WatchResult
  | err (timeout : Bool) (message : String) : WatchResult
deriving DecidableEq

/-- The value of a completed `simulateTransaction` call (client.ts lines
120-126): an optional error (modelled by its JSON serialization, an
opaque string, since the client only ever serializes it at line 139) and
optional log lines. -/
structure SimulatedTransactionResponse where
  err : Option String
  logs : Option (List String)
deriving DecidableEq

/-- Outcome of the guarded simulation call (client.ts lines 119-127):
either `simulateTransaction` threw (the exception is caught by the empty
`catch (e) \x7b\x7d` and `simulateResult` stays null), or it returned a
response. -/
inductive SimOutcome where
  | threw (emsg : String) : SimOutcome
  | returned (r : SimulatedTransactionResponse) : SimOutcome
deriving DecidableEq

/-- The environment of one `sendTransaction` call, after the transaction
has been signed and initially submitted: the computed signature `txid`,
what the watcher reports, what the dry-run would report, and the
result (success or failure) each rebroadcast attempt would have. -/
structure SendEnv where
  txid : String
  watch : WatchResult
  simulate : SimOutcome
  sendOk : Nat → Bool

/-- JavaScript `line.startsWith(marker)`, modelled on the character
sequences of the two strings. -/
def startsWithM (line marker : String) : Bool :=
  marker.data.isPrefixOf line.data

/-- JavaScript `line.slice(n)` for nonnegative `n`: the string without
its first `n` characters. -/
def sliceFrom (n : Nat) (line : String) : String :=
  ⟨line.data.drop n⟩

/-- Lines 130-137 of client.ts: iterate over the log lines from the last
index down to the first and return the first line found that starts with
the marker "Program log: ", stripped of the marker.  The recursion
prefers a match in the tail (higher indices), which is the same
last-to-first preference. -/
def scanLogs : List String → Option String
  | [] => none
  | line :: rest =>
    match scanLogs rest with
    | some m => some m
    | none =>
      if startsWithM line "Program log: " then
        some (sliceFrom ("Program log: ".length) line)
      else none

/-- The Diagnoser scan as the spec words it (section 4.3): scan log
lines from last to first, return the content of the first line matching
the program-log marker, stripped of its marker prefix.  Stated
independently of `scanLogs` so the two can be compared. -/
def specScan (logs : List String) : Option String :=
  (logs.reverse.find? (fun l => startsWithM l "Program log: ")).map
    (fun l => sliceFrom ("Program log: ".length) l)

/-- The non-timeout part of the catch block (client.ts lines 118-141):
run the dry-run; if it threw, `simulateResult` is null and the generic
"Transaction failed" is thrown (line 141); if it returned an error with
log lines, the last program-log line wins (lines 130-137); with an error
but no matching line, the serialized raw error is thrown (line 139);
with no error, the generic message is thrown (line 141). -/
def runDiagnosis : SimOutcome → String
  | .threw _ => "Transaction failed"
  | .returned r =>
    match r.err with
    | none => "Transaction failed"
    | some e =>
      match r.logs with
      | none => e
      | some logs =>
        match scanLogs logs with
        | some m => "Transaction failed: " ++ m
        | none => e

/-- Result of one `sendTransaction` call: the returned signature or the
thrown error message, the final value of the `done` flag (set in the
`finally` block, line 143), and whether the diagnostic dry-run was
invoked. -/
structure SendOutcome where
  result : Except String String
  done : Bool
  simulated : Bool

/-- client.ts lines 96-148, after the initial submission: await the
watcher; on success return the txid; on an error with the timeout flag
throw the plain timed-out message at once (lines 115-117), without
running the dry-run; otherwise run the diagnosis (lines 118-141).  The
`finally` block sets `done := true` on every path.  The rebroadcast
results `env.sendOk` are never consulted: the loop at lines 98-105
neither awaits nor inspects them. -/
def sendTransaction (env : SendEnv) : SendOutcome :=
  match env.watch with
  | .ok => ⟨.ok env.txid, true, false⟩
  | .err true _ => ⟨.error "Timed out awaiting confirmation on transaction", true, false⟩
  | .err false _ => ⟨.error (runDiagnosis env.simulate), true, true⟩

/-- `Promise.all` over already-determined per-entry results: fulfils
with the ordered list of values when every entry fulfils, and rejects
with the error of a rejected entry otherwise (taken in input order, a
deterministic proxy for "first to reject in time"; the two agree
whenever at most one entry rejects). -/
def promiseAll {ε α : Type} : List (Except ε α) → Except ε (List α)
  | [] => .ok []
  | x :: rest =>
    match x with
    | .error e => .error e
    | .ok a =>
      match promiseAll rest with
      | .error e => .error e
      | .ok as => .ok (a :: as)

/-- client.ts lines 51-69: `sendTransactions` maps one independent
`sendTransaction` over the batch and combines them with `Promise.all`. -/
def sendTransactions (envs : List SendEnv) : Except String (List String) :=
  promiseAll (envs.map (fun env => (sendTransaction env).result))

/-- One fuel-indexed unfolding of the rebroadcast loop (client.ts lines
98-105).  Time is discretized in ticks of the 300 ms sleep: at tick `n`
(elapsed `300 * n` ms) the loop checks `!done && elapsed < timeout` and,
if the check passes, issues a resend whose result is `sendOk n`
(recorded in the trace but never awaited nor inspected) and continues;
otherwise it exits. -/
def sendTraceAux (done sendOk : Nat → Bool) (timeout : Nat) : Nat → Nat → List (Nat × Bool)
  | 0, _ => []
  | fuel + 1, n =>
    if done n = false ∧ 300 * n < timeout then
      (n, sendOk n) :: sendTraceAux done sendOk timeout fuel (n + 1)
    else []

/-- The full trace of resends issued by the rebroadcast loop, as pairs
of (tick, result of that send).  The fuel `timeout / 300 + 1` bounds the
number of iterations: past it the elapsed-time check fails anyway. -/
def sendTrace (done sendOk : Nat → Bool) (timeout : Nat) : List (Nat × Bool) :=
  sendTraceAux done sendOk timeout (timeout / 300 + 1) 0

/-- Whether an `Except` value is a success. -/
def exceptIsOk {ε α : Type} : Except ε α → Bool
  | .ok _ => true
  | .error _ => false

/-- Whether a watcher outcome is the confirmed one. -/
def watchIsOk : WatchResult → Bool
  | .ok => true
  | .err _ _ => false

/-- An account lookup result: `getAccountInfo` returns either null or an
account record carrying a `data` buffer (bytes modelled as naturals). -/
structure AccountInfoM where
  data : List Nat
deriving DecidableEq

/-- JavaScript property access `acc.data` (client.ts line 449): throws a
TypeError when `acc` is null, otherwise yields the buffer. -/
def accData : Option AccountInfoM → Except String (List Nat)
  | none => .error "TypeError: Cannot read property data of null"
  | some a => .ok a.data

/-- Modelled from the spec: account-layout decoding is out of scope
("treated as opaque deserializers", spec section 1) and layout.ts is not
under src/, so a RootBank is an abstract wrapper of the raw bytes. -/
structure RootBank where
  raw : List Nat
deriving DecidableEq

/-- Modelled from the spec: the opaque `RootBankLayout.decode`
deserializer, applied to a (non-null) data buffer. -/
def RootBankLayout.decode (d : List Nat) : RootBank := ⟨d⟩

/-- Modelled from the spec: the decoded form of a MerpsGroup account,
an abstract wrapper of the possibly-absent data handed to the layout
decoder (`undefined` is modelled as `none`). -/
structure MerpsGroupDecoded where
  raw : Option (List Nat)
deriving DecidableEq

/-- Modelled from the spec: the opaque `MerpsGroupLayout.decode`
deserializer; client.ts line 257-259 hands it `undefined` when the
lookup returned null, so it takes an optional buffer. -/
def MerpsGroupLayout.decode (d : Option (List Nat)) : MerpsGroupDecoded := ⟨d⟩

/-- Modelled from the spec: decoded form of a MerpsAccount, same shape
as `MerpsGroupDecoded`. -/
structure MerpsAccountDecoded where
  raw : Option (List Nat)
deriving DecidableEq

/-- Modelled from the spec: the opaque `MerpsAccountLayout.decode`
deserializer used at client.ts line 313. -/
def MerpsAccountLayout.decode (d : Option (List Nat)) : MerpsAccountDecoded := ⟨d⟩

/-- A MerpsGroup domain object as built at client.ts line 261. -/
structure MerpsGroup where
  publicKey : String
  decoded : MerpsGroupDecoded
deriving DecidableEq

/-- A MerpsAccount domain object as built at client.ts lines 311-314. -/
structure MerpsAccount where
  publicKey : String
  decoded : MerpsAccountDecoded
deriving DecidableEq

/-- client.ts lines 255-262: `getMerpsGroup` fetches the account and
passes `accountInfo == null ? undefined : accountInfo.data` to the
layout decoder — an absent account flows through as `undefined` rather
than failing at the lookup. -/
def getMerpsGroup (pk : String) (accountInfo : Option AccountInfoM) : MerpsGroup :=
  ⟨pk, MerpsGroupLayout.decode
    (match accountInfo with
     | none => none
     | some a => some a.data)⟩

/-- client.ts lines 303-317 (the decoding part): `getMerpsAccount` also
passes `acc == null ? undefined : acc.data` to its decoder. -/
def getMerpsAccount (pk : String) (acc : Option AccountInfoM) : MerpsAccount :=
  ⟨pk, MerpsAccountLayout.decode
    (match acc with
     | none => none
     | some a => some a.data)⟩

/-- client.ts lines 443-454: `loadRootBanks` looks up every account and
then maps `RootBankLayout.decode(acc.data)` over the results with no
null guard; the first null lookup makes the whole call throw, and no
partial list is returned. -/
def loadRootBanks : List (Option AccountInfoM) → Except String (List RootBank)
  | [] => .ok []
  | acc :: rest =>
    match accData acc with
    | .error e => .error e
    | .ok d =>
      match loadRootBanks rest with
      | .error e => .error e
      | .ok bs => .ok (RootBankLayout.decode d :: bs)

/-- client.ts lines 435-437: `placePerpOrder` throws 'Not Implemented'
before performing any network call; the second component is the (empty)
trace of network requests issued. -/
def placePerpOrder : Except String (List String) × List String :=
  (.error "Not Implemented", [])

/-- client.ts lines 439-441: `cancelPerpOrder` likewise. -/
def cancelPerpOrder : Except String (List String) × List String :=
  (.error "Not Implemented", [])

/-
  Helper lemmas shared by the claim theorems below.
-/

/-- A confirmed watcher outcome makes `sendTransaction` return the txid
with the done flag set and no dry-run. -/
theorem sendTransaction_watch_ok (env : SendEnv) (h : env.watch = WatchResult.ok) :
    sendTransaction env = ⟨.ok env.txid, true, false⟩ := by
  simp [sendTransaction, h]

/-- A non-timeout watcher error routes `sendTransaction` through the
diagnosis path. -/
theorem sendTransaction_watch_rejected (env : SendEnv) (m : String)
    (h : env.watch = WatchResult.err false m) :
    sendTransaction env = ⟨.error (runDiagnosis env.simulate), true, true⟩ := by
  simp [sendTransaction, h]

/-- The success of a submission coincides with the watcher reporting
confirmed. -/
theorem sendTransaction_result_isOk (env : SendEnv) :
    exceptIsOk (sendTransaction env).result = watchIsOk env.watch := by
  rcases hw : env.watch with _ | ⟨t, m⟩
  · simp [sendTransaction, hw, exceptIsOk, watchIsOk]
  · cases t <;> simp [sendTransaction, hw, exceptIsOk, watchIsOk]

/-- `promiseAll` of a cons whose head fulfils and whose tail fulfils. -/
theorem promiseAll_cons_ok {ε α : Type} (a : α) (l : List (Except ε α)) (vs : List α)
    (h : promiseAll l = .ok vs) : promiseAll (Except.ok a :: l) = .ok (a :: vs) := by
  simp [promiseAll, h]

/-- `promiseAll` rejects as soon as any entry rejects. -/
theorem promiseAll_isOk_false {ε α : Type} (l : List (Except ε α)) (x : Except ε α)
    (hx : x ∈ l) (hex : exceptIsOk x = false) :
    exceptIsOk (promiseAll l) = false := by
  induction l with
  | nil => cases hx
  | cons a rest ih =>
    rcases List.mem_cons.mp hx with h | h
    · subst h
      cases x with
      | error e => rfl
      | ok v => simp [exceptIsOk] at hex
    · cases a with
      | error e => rfl
      | ok v =>
        have hr := ih h
        cases hp : promiseAll rest with
        | error e => simp [promiseAll, hp, exceptIsOk]
        | ok vs => rw [hp] at hr; simp [exceptIsOk] at hr

/-- Every send recorded by the loop happens at a tick where the done
flag is still false: the guard is checked at each iteration boundary. -/
theorem sendTraceAux_mem_done (d s : Nat → Bool) (timeout : Nat) :
    ∀ (fuel start n : Nat) (b : Bool),
      (n, b) ∈ sendTraceAux d s timeout fuel start → d n = false := by
  intro fuel
  induction fuel with
  | zero => intro start n b h; simp [sendTraceAux] at h
  | succ k ih =>
    intro start n b h
    rw [sendTraceAux] at h
    by_cases hc : d start = false ∧ 300 * start < timeout
    · rw [if_pos hc] at h
      rcases List.mem_cons.mp h with he | ht
      · rw [(Prod.mk.injEq _ _ _ _).mp he |>.1]
        exact hc.1
      · exact ih (start + 1) n b ht
    · rw [if_neg hc] at h
      cases h

/-- The ticks at which the loop resends do not depend on the result of
each send. -/
theorem sendTraceAux_fst (d f g : Nat → Bool) (timeout : Nat) :
    ∀ (fuel start : Nat),
      (sendTraceAux d f timeout fuel start).map Prod.fst
        = (sendTraceAux d g timeout fuel start).map Prod.fst := by
  intro fuel
  induction fuel with
  | zero => intro start; rfl
  | succ k ih =>
    intro start
    rw [sendTraceAux, sendTraceAux]
    by_cases hc : d start = false ∧ 300 * start < timeout
    · rw [if_pos hc, if_pos hc]
      simp [ih]
    · rw [if_neg hc, if_neg hc]

/-- `find?` over a list with one element appended: the earlier elements
win, the appended one is tried last. -/
theorem find?_append_singleton (p : String → Bool) (as : List String) (x : String) :
    List.find? p (as ++ [x]) =
      match List.find? p as with
      | some r => some r
      | none => if p x then some x else none := by
  induction as with
  | nil =>
    by_cases h : p x <;> simp [List.find?, h]
  | cons a as ih =>
    by_cases h : p a = true
    · rw [List.cons_append, List.find?_cons_of_pos _ h, List.find?_cons_of_pos _ h]
    · rw [List.cons_append, List.find?_cons_of_neg _ h, List.find?_cons_of_neg _ h, ih]

/-- The source's last-to-first scan agrees with the spec's wording of
it: reverse the lines and take the first match. -/
theorem scanLogs_eq_specScan (logs : List String) : scanLogs logs = specScan logs := by
  induction logs with
  | nil => rfl
  | cons line rest ih =>
    cases hf : List.find? (fun l => startsWithM l "Program log: ") rest.reverse with
    | some r =>
      have hs : specScan rest = some (sliceFrom ("Program log: ".length) r) := by
        simp [specScan, hf]
      rw [scanLogs, ih, hs]
      simp [specScan, List.reverse_cons, find?_append_singleton, hf]
    | none =>
      have hs : specScan rest = none := by simp [specScan, hf]
      rw [scanLogs, ih, hs]
      by_cases h : startsWithM line "Program log: " <;>
        simp [specScan, List.reverse_cons, find?_append_singleton, hf, h]

/-- When no line carries the program-log marker the scan finds
nothing. -/
theorem scanLogs_eq_none (logs : List String)
    (h : ∀ l ∈ logs, startsWithM l "Program log: " = false) :
    scanLogs logs = none := by
  induction logs with
  | nil => rfl
  | cons line rest ih =>
    rw [scanLogs, ih (fun l hl => h l (List.mem_cons_of_mem _ hl))]
    simp [h line (List.mem_cons_self _ _)]

/-
  Claim theorems.
-/

/-- C1 counterexample: a batch of two entries where entry 0 confirms
(its own submit yields "sigA") and entry 1 rejects.  The batch call
rejects with the single error of entry 1 and returns no identifiers at
all — not a per-entry sequence with one failure at index 1 and one
identifier at index 0. -/
theorem sendTransactions_not_per_entry_cex :
    sendTransactions [⟨"sigA", WatchResult.ok, SimOutcome.threw "u", fun _ => true⟩,
        ⟨"sigB", WatchResult.err false "boom", SimOutcome.threw "x", fun _ => true⟩]
      = Except.error "Transaction failed"
    ∧ (sendTransaction ⟨"sigA", WatchResult.ok, SimOutcome.threw "u", fun _ => true⟩).result
      = Except.ok "sigA"
    ∧ exceptIsOk (sendTransactions
        [⟨"sigA", WatchResult.ok, SimOutcome.threw "u", fun _ => true⟩,
         ⟨"sigB", WatchResult.err false "boom", SimOutcome.threw "x", fun _ => true⟩]) = false :=
  ⟨rfl, rfl, rfl⟩

/-- C1 (amended): `sendTransactions` issues one independent
`sendTransaction` per entry; when every entry confirms it returns their
identifiers one-to-one in input order; but when any entry fails the
whole call rejects with a failing entry's error (`Promise.all`
semantics) and no identifiers reach the caller. -/
theorem sendTransactions_batch (envs : List SendEnv) :
    ((∀ env ∈ envs, env.watch = WatchResult.ok) →
        sendTransactions envs = Except.ok (envs.map SendEnv.txid))
    ∧ ((∃ env ∈ envs, watchIsOk env.watch = false) →
        exceptIsOk (sendTransactions envs) = false) := by
  constructor
  · intro hall
    induction envs with
    | nil => rfl
    | cons a rest ih =>
      have ha : a.watch = WatchResult.ok := hall a (List.mem_cons_self _ _)
      have hres : (sendTransaction a).result = Except.ok a.txid := by
        rw [sendTransaction_watch_ok a ha]
      have hr : promiseAll (rest.map fun env => (sendTransaction env).result)
          = Except.ok (rest.map SendEnv.txid) :=
        ih (fun e he => hall e (List.mem_cons_of_mem a he))
      show promiseAll
          ((sendTransaction a).result :: rest.map fun env => (sendTransaction env).result)
        = Except.ok (a.txid :: rest.map SendEnv.txid)
      rw [hres]
      exact promiseAll_cons_ok _ _ _ hr
  · rintro ⟨env, hmem, hko⟩
    have hx : exceptIsOk (sendTransaction env).result = false := by
      rw [sendTransaction_result_isOk]; exact hko
    exact promiseAll_isOk_false _ _
      (List.mem_map_of_mem (fun e => (sendTransaction e).result) hmem) hx

/-- C1 witness: the amended theorem applied to a concrete all-confirm
batch and to a concrete batch with one rejecting entry. -/
theorem sendTransactions_batch_witness :
    sendTransactions [⟨"sig1", WatchResult.ok, SimOutcome.threw "u", fun _ => true⟩,
        ⟨"sig2", WatchResult.ok, SimOutcome.threw "v", fun _ => true⟩]
      = Except.ok ["sig1", "sig2"]
    ∧ exceptIsOk (sendTransactions
        [⟨"sig9", WatchResult.err false "boom", SimOutcome.threw "x", fun _ => true⟩]) = false :=
  ⟨(sendTransactions_batch
      [⟨"sig1", WatchResult.ok, SimOutcome.threw "u", fun _ => true⟩,
       ⟨"sig2", WatchResult.ok, SimOutcome.threw "v", fun _ => true⟩]).1
      (by intro e he
          rcases List.mem_cons.mp he with h | h
          · rw [h]
          · rw [List.mem_singleton.mp h]),
   (sendTransactions_batch
      [⟨"sig9", WatchResult.err false "boom", SimOutcome.threw "x", fun _ => true⟩]).2
      ⟨⟨"sig9", WatchResult.err false "boom", SimOutcome.threw "x", fun _ => true⟩,
       List.mem_singleton.mpr rfl, rfl⟩⟩

/-- C2 counterexample: a watcher timeout in an environment whose
dry-run would have produced the strictly more specific diagnosis
"Transaction failed: insufficient funds".  The call still fails with
the plain timed-out message — the dry-run is not invoked on the timeout
path (simulated = false) and the error is not enriched. -/
theorem timeout_not_enriched_cex :
    sendTransaction ⟨"sigT", WatchResult.err true "deadline",
        SimOutcome.returned ⟨some "E", some ["Program log: insufficient funds"]⟩,
        fun _ => true⟩
      = ⟨Except.error "Timed out awaiting confirmation on transaction", true, false⟩
    ∧ runDiagnosis (SimOutcome.returned ⟨some "E", some ["Program log: insufficient funds"]⟩)
      = "Transaction failed: insufficient funds"
    ∧ (("Timed out awaiting confirmation on transaction"
        == "Transaction failed: insufficient funds") = false) :=
  ⟨rfl, by decide, by decide⟩

/-- C2 (amended): on a watcher timeout the coordinator stops the
broadcaster (the finally block sets done) and fails immediately with
the plain "Timed out awaiting confirmation on transaction" error; the
Diagnoser is not run on this path and the message is never enriched. -/
theorem timeout_plain_error (env : SendEnv) (m : String)
    (h : env.watch = WatchResult.err true m) :
    sendTransaction env
      = ⟨Except.error "Timed out awaiting confirmation on transaction", true, false⟩ := by
  simp [sendTransaction, h]

/-- C2 witness: the amended theorem at a concrete timed-out
environment. -/
theorem timeout_plain_error_witness :
    sendTransaction ⟨"sig2", WatchResult.err true "deadline", SimOutcome.threw "u",
        fun _ => true⟩
      = ⟨Except.error "Timed out awaiting confirmation on transaction", true, false⟩ :=
  timeout_plain_error
    ⟨"sig2", WatchResult.err true "deadline", SimOutcome.threw "u", fun _ => true⟩
    "deadline" rfl

/-- C3: every resend recorded in the loop's trace happens at a tick
where the done flag is still false (the guard is observed at each
iteration boundary), and `sendTransaction` sets the flag on every exit
path — success, timeout and rejection alike. -/
theorem broadcast_stops_when_done :
    (∀ (d s : Nat → Bool) (timeout n : Nat) (b : Bool),
        (n, b) ∈ sendTrace d s timeout → d n = false)
    ∧ (∀ env : SendEnv, (sendTransaction env).done = true) := by
  constructor
  · intro d s timeout n b h
    exact sendTraceAux_mem_done d s timeout _ 0 n b h
  · intro env
    rcases hw : env.watch with _ | ⟨t, m⟩
    · simp [sendTransaction, hw]
    · cases t <;> simp [sendTransaction, hw]

/-- C3 witness: the theorem applied at a concrete done schedule and a
concrete environment. -/
theorem broadcast_stops_when_done_witness :
    (fun _ : Nat => false) 0 = false
    ∧ (sendTransaction ⟨"sig3", WatchResult.ok, SimOutcome.threw "u", fun _ => true⟩).done
      = true :=
  ⟨broadcast_stops_when_done.1 (fun _ => false) (fun _ => true) 400 0 true (by decide),
   broadcast_stops_when_done.2 ⟨"sig3", WatchResult.ok, SimOutcome.threw "u", fun _ => true⟩⟩

/-- C4: the Diagnoser's extraction agrees with the spec's last-to-first
scan for every log list; on ["Program log: A", "Program log: B",
"Program log: C"] the extracted message is "C"; and end to end the
surfaced error is "Transaction failed: C". -/
theorem diagnoser_extracts_last_program_log :
    (∀ logs : List String, scanLogs logs = specScan logs)
    ∧ scanLogs ["Program log: A", "Program log: B", "Program log: C"] = some "C"
    ∧ (sendTransaction ⟨"sig4", WatchResult.err false "rej",
        SimOutcome.returned
          ⟨some "E", some ["Program log: A", "Program log: B", "Program log: C"]⟩,
        fun _ => true⟩).result = Except.error "Transaction failed: C" :=
  ⟨scanLogs_eq_specScan, by decide, rfl⟩

/-- C5: when the dry-run reports a non-null error but no log line
starts with the program-log marker (including the case of absent logs),
the surfaced error is the serialized raw dry-run error value. -/
theorem raw_error_when_no_program_log (env : SendEnv) (m e : String)
    (logs : Option (List String))
    (hw : env.watch = WatchResult.err false m)
    (hs : env.simulate = SimOutcome.returned ⟨some e, logs⟩)
    (hl : ∀ l ∈ logs.getD [], startsWithM l "Program log: " = false) :
    (sendTransaction env).result = Except.error e := by
  rw [sendTransaction_watch_rejected env m hw]
  show Except.error (runDiagnosis env.simulate) = Except.error e
  rw [hs]
  cases logs with
  | none => rfl
  | some ls =>
    have hn : scanLogs ls = none := scanLogs_eq_none ls (by simpa using hl)
    simp [runDiagnosis, hn]

/-- C5 witness: the theorem at a concrete rejected environment whose
dry-run error is "RAWERR" and whose only log line has no marker. -/
theorem raw_error_when_no_program_log_witness :
    (sendTransaction ⟨"sig5", WatchResult.err false "rej",
        SimOutcome.returned ⟨some "RAWERR", some ["some other line"]⟩,
        fun _ => true⟩).result = Except.error "RAWERR" :=
  raw_error_when_no_program_log
    ⟨"sig5", WatchResult.err false "rej",
      SimOutcome.returned ⟨some "RAWERR", some ["some other line"]⟩, fun _ => true⟩
    "rej" "RAWERR" (some ["some other line"]) rfl rfl (by decide)

/-- C6: when the simulation call itself throws, the caller receives the
generic "Transaction failed" error, whatever the diagnosis step's own
exception message was — that exception is swallowed by the empty catch
and never surfaced as the transaction's error. -/
theorem generic_error_when_dry_run_fails (env : SendEnv) (m emsg : String)
    (hw : env.watch = WatchResult.err false m)
    (hs : env.simulate = SimOutcome.threw emsg) :
    (sendTransaction env).result = Except.error "Transaction failed" := by
  rw [sendTransaction_watch_rejected env m hw]
  show Except.error (runDiagnosis env.simulate) = _
  rw [hs]
  rfl

/-- C6 witness: the theorem at a concrete environment where the
simulation throws "connection reset". -/
theorem generic_error_when_dry_run_fails_witness :
    (sendTransaction ⟨"sig6", WatchResult.err false "rej",
        SimOutcome.threw "connection reset", fun _ => true⟩).result
      = Except.error "Transaction failed" :=
  generic_error_when_dry_run_fails
    ⟨"sig6", WatchResult.err false "rej", SimOutcome.threw "connection reset", fun _ => true⟩
    "rej" "connection reset" rfl rfl

/-- C7 counterexample: a rejection whose raw status message is "custom
program error: 0x22" with an inconclusive diagnosis (the dry-run
throws): the caller receives the generic "Transaction failed", which is
not the raw rejection message; a different raw message yields the very
same output, so the rejection's message is discarded, not surfaced. -/
theorem rejection_message_lost_cex :
    (sendTransaction ⟨"sig7", WatchResult.err false "custom program error: 0x22",
        SimOutcome.threw "connection refused", fun _ => true⟩).result
      = Except.error "Transaction failed"
    ∧ (("Transaction failed" == "custom program error: 0x22") = false)
    ∧ (sendTransaction ⟨"sig7", WatchResult.err false "a different raw status error",
        SimOutcome.threw "connection refused", fun _ => true⟩).result
      = Except.error "Transaction failed" :=
  ⟨rfl, by decide, rfl⟩

/-- C7 (amended): when the watcher rejects and the diagnosis is
inconclusive (the dry-run throws, or returns with a null error), the
caller still receives a failure — the generic "Transaction failed" —
and never the diagnosis step's own error; the raw rejection message,
however, is discarded rather than carried to the caller. -/
theorem rejected_inconclusive_generic (env : SendEnv) (m : String)
    (hw : env.watch = WatchResult.err false m)
    (hs : (∃ emsg, env.simulate = SimOutcome.threw emsg)
        ∨ (∃ logs, env.simulate = SimOutcome.returned ⟨none, logs⟩)) :
    sendTransaction env = ⟨Except.error "Transaction failed", true, true⟩ := by
  rcases hs with ⟨emsg, hs⟩ | ⟨logs, hs⟩ <;>
    simp [sendTransaction, hw, hs, runDiagnosis]

/-- C7 witness: the amended theorem at a concrete rejected environment
whose dry-run succeeded with no error. -/
theorem rejected_inconclusive_generic_witness :
    sendTransaction ⟨"sig7w", WatchResult.err false "raw rejection",
        SimOutcome.returned ⟨none, some ["Program log: never read"]⟩, fun _ => true⟩
      = ⟨Except.error "Transaction failed", true, true⟩ :=
  rejected_inconclusive_generic
    ⟨"sig7w", WatchResult.err false "raw rejection",
      SimOutcome.returned ⟨none, some ["Program log: never read"]⟩, fun _ => true⟩
    "raw rejection" rfl (Or.inr ⟨some ["Program log: never read"], rfl⟩)

/-- C8: the result of each resend never influences the loop — the
trace's ticks are identical whatever each send returns — nor the
submission's outcome: `sendTransaction` is invariant in the sendOk
field, and the success of its result coincides exactly with the watcher
reporting confirmed. -/
theorem send_failures_ignored :
    (∀ (d f g : Nat → Bool) (timeout : Nat),
        (sendTrace d f timeout).map Prod.fst = (sendTrace d g timeout).map Prod.fst)
    ∧ (∀ (t : String) (w : WatchResult) (s : SimOutcome) (f g : Nat → Bool),
        sendTransaction ⟨t, w, s, f⟩ = sendTransaction ⟨t, w, s, g⟩)
    ∧ (∀ env : SendEnv, exceptIsOk (sendTransaction env).result = watchIsOk env.watch) := by
  refine ⟨?_, ?_, ?_⟩
  · intro d f g timeout
    exact sendTraceAux_fst d f g timeout _ 0
  · intro t w s f g
    rfl
  · intro env
    exact sendTransaction_result_isOk env

/-- C9: `placePerpOrder` and `cancelPerpOrder` fail with the error
'Not Implemented', issue no network request (empty trace), and never
return identifiers. -/
theorem perp_orders_not_implemented :
    placePerpOrder = (Except.error "Not Implemented", [])
    ∧ cancelPerpOrder = (Except.error "Not Implemented", [])
    ∧ exceptIsOk placePerpOrder.1 = false
    ∧ exceptIsOk cancelPerpOrder.1 = false :=
  ⟨rfl, rfl, rfl, rfl⟩

/-- C10: a null account lookup makes `loadRootBanks` fail (the unguarded
`acc.data` dereference) with no partial result, while `getMerpsGroup`
and `getMerpsAccount` forward the absent account's data to the layout
decoder as undefined instead of failing at the lookup. -/
theorem loadRootBanks_null_fails :
    (∀ accounts : List (Option AccountInfoM), none ∈ accounts →
        exceptIsOk (loadRootBanks accounts) = false)
    ∧ (∀ pk : String, getMerpsGroup pk none = ⟨pk, MerpsGroupLayout.decode none⟩)
    ∧ (∀ pk : String, getMerpsAccount pk none = ⟨pk, MerpsAccountLayout.decode none⟩) := by
  refine ⟨?_, fun pk => rfl, fun pk => rfl⟩
  intro accounts h
  induction accounts with
  | nil => cases h
  | cons a rest ih =>
    rcases List.mem_cons.mp h with ha | ha
    · rw [← ha]
      rfl
    · have hrest := ih ha
      cases a with
      | none => rfl
      | some ai =>
        cases hr : loadRootBanks rest with
        | error e => simp [loadRootBanks, accData, hr, exceptIsOk]
        | ok bs => rw [hr] at hrest; simp [exceptIsOk] at hrest

/-- C10 witness: the theorem at a two-element lookup list whose second
entry is null. -/
theorem loadRootBanks_null_fails_witness :
    exceptIsOk (loadRootBanks [some ⟨[1, 2]⟩, none]) = false :=
  loadRootBanks_null_fails.1 [some ⟨[1, 2]⟩, none] (by decide)
